/-
  Verification of the cryptographic and protocol core of the
  bolt-card-emulator NTAG424 DNA tag emulator.

  Bytes are modelled as `Nat` (kept below 256 by the operations that matter),
  byte arrays as `List Nat`, and strings as their ASCII byte lists.
  Fallible operations (code paths that `throw`) return `Option`.
-/
import Mathlib

namespace BoltCard

/-! ## Byte utilities (src/crypto/utils.ts) -/

/-- XOR two byte arrays (`xor` in utils.ts and `xorBytes` in aes.ts).
The source throws on unequal lengths; every call site here uses equal
lengths, so we model it as a plain `zipWith`. -/
def xorBytes (a b : List Nat) : List Nat :=
  List.zipWith (fun x y => x ^^^ y) a b

/-- Left shift a byte array by 1 bit (`leftShift` in utils.ts /
`leftShiftOne` in aes.ts): the loop runs from the last byte to the first,
carrying the outgoing MSB into the next byte to the left. -/
def leftShiftOne (data : List Nat) : List Nat :=
  (data.foldr
    (fun b acc =>
      let newCarry := (b &&& 0x80) >>> 7
      (newCarry, (((b <<< 1) ||| acc.1) &&& 0xFF) :: acc.2))
    ((0 : Nat), ([] : List Nat))).2

/-- `numberToBytes(num, byteLength)` from utils.ts: fixed-width big-endian
encoding, filling from the least significant byte. -/
def numberToBytes (num len : Nat) : List Nat :=
  (List.range len).map (fun i => (num >>> (8 * (len - 1 - i))) &&& 0xFF)

/-- Big-endian numeric value of a byte list (the reading of the 3-byte
counter as a 24-bit integer, `bytesToNumber` in utils.ts). -/
def counterVal (l : List Nat) : Nat :=
  l.foldl (fun n b => n * 256 + b) 0

/-- `incrementCounter` from utils.ts: increment from the least significant
byte; a 0xFF byte becomes 0x00 and the carry moves left, any other byte is
incremented and the loop stops. Implemented on the reversed list. -/
def incCounterAux : List Nat → List Nat
  | [] => []
  | b :: rest => if b == 0xFF then 0 :: incCounterAux rest else (b + 1) :: rest

/-- `incrementCounter` from utils.ts (3-byte counter increment with wrap). -/
def incrementCounter (counter : List Nat) : List Nat :=
  (incCounterAux counter.reverse).reverse

/-! ## AES-128 block cipher

Modelled from the spec: the repository delegates the AES-128 block
primitive to the CryptoJS library, which is not part of src/; §4.1 of the
spec requires "Standard AES-128 on 16-byte blocks", so we embed the FIPS-197
cipher directly.  The state is the flat byte list in input order
(`s[r][c] = in[r + 4*c]`). -/

/-- The AES S-box (FIPS-197 Figure 7). -/
def sbox : List Nat :=
  [0x63,0x7c,0x77,0x7b,0xf2,0x6b,0x6f,0xc5,0x30,0x01,0x67,0x2b,0xfe,0xd7,0xab,0x76,
   0xca,0x82,0xc9,0x7d,0xfa,0x59,0x47,0xf0,0xad,0xd4,0xa2,0xaf,0x9c,0xa4,0x72,0xc0,
   0xb7,0xfd,0x93,0x26,0x36,0x3f,0xf7,0xcc,0x34,0xa5,0xe5,0xf1,0x71,0xd8,0x31,0x15,
   0x04,0xc7,0x23,0xc3,0x18,0x96,0x05,0x9a,0x07,0x12,0x80,0xe2,0xeb,0x27,0xb2,0x75,
   0x09,0x83,0x2c,0x1a,0x1b,0x6e,0x5a,0xa0,0x52,0x3b,0xd6,0xb3,0x29,0xe3,0x2f,0x84,
   0x53,0xd1,0x00,0xed,0x20,0xfc,0xb1,0x5b,0x6a,0xcb,0xbe,0x39,0x4a,0x4c,0x58,0xcf,
   0xd0,0xef,0xaa,0xfb,0x43,0x4d,0x33,0x85,0x45,0xf9,0x02,0x7f,0x50,0x3c,0x9f,0xa8,
   0x51,0xa3,0x40,0x8f,0x92,0x9d,0x38,0xf5,0xbc,0xb6,0xda,0x21,0x10,0xff,0xf3,0xd2,
   0xcd,0x0c,0x13,0xec,0x5f,0x97,0x44,0x17,0xc4,0xa7,0x7e,0x3d,0x64,0x5d,0x19,0x73,
   0x60,0x81,0x4f,0xdc,0x22,0x2a,0x90,0x88,0x46,0xee,0xb8,0x14,0xde,0x5e,0x0b,0xdb,
   0xe0,0x32,0x3a,0x0a,0x49,0x06,0x24,0x5c,0xc2,0xd3,0xac,0x62,0x91,0x95,0xe4,0x79,
   0xe7,0xc8,0x37,0x6d,0x8d,0xd5,0x4e,0xa9,0x6c,0x56,0xf4,0xea,0x65,0x7a,0xae,0x08,
   0xba,0x78,0x25,0x2e,0x1c,0xa6,0xb4,0xc6,0xe8,0xdd,0x74,0x1f,0x4b,0xbd,0x8b,0x8a,
   0x70,0x3e,0xb5,0x66,0x48,0x03,0xf6,0x0e,0x61,0x35,0x57,0xb9,0x86,0xc1,0x1d,0x9e,
   0xe1,0xf8,0x98,0x11,0x69,0xd9,0x8e,0x94,0x9b,0x1e,0x87,0xe9,0xce,0x55,0x28,0xdf,
   0x8c,0xa1,0x89,0x0d,0xbf,0xe6,0x42,0x68,0x41,0x99,0x2d,0x0f,0xb0,0x54,0xbb,0x16]

/-- S-box lookup of one byte. -/
def sboxAt (b : Nat) : Nat := sbox.getD b 0

/-- Round constants for AES-128 key expansion. -/
def rcon : List Nat := [0x01,0x02,0x04,0x08,0x10,0x20,0x40,0x80,0x1b,0x36]

/-- `SubWord`: apply the S-box to each byte of a 4-byte word. -/
def subWord (w : List Nat) : List Nat := w.map sboxAt

/-- `RotWord`: rotate a 4-byte word left by one byte. -/
def rotWord (w : List Nat) : List Nat := w.drop 1 ++ w.take 1

/-- One step of the AES-128 key expansion: append word `i` (i ≥ 4). -/
def nextWord (ws : List (List Nat)) (i : Nat) : List (List Nat) :=
  let prev := ws.getD (ws.length - 1) []
  let four := ws.getD (ws.length - 4) []
  let t := if i % 4 == 0
    then xorBytes (subWord (rotWord prev)) [rcon.getD (i / 4 - 1) 0, 0, 0, 0]
    else prev
  ws ++ [xorBytes four t]

/-- AES-128 key expansion to 44 four-byte words. -/
def keySchedule (key : List Nat) : List (List Nat) :=
  (List.range 40).foldl (fun ws j => nextWord ws (j + 4))
    [key.take 4, (key.drop 4).take 4, (key.drop 8).take 4, (key.drop 12).take 4]

/-- Round key `r` as a flat 16-byte list (words 4r..4r+3 joined). -/
def roundKey (ws : List (List Nat)) (r : Nat) : List Nat :=
  (List.range 16).map (fun i => (ws.getD (4 * r + i / 4) []).getD (i % 4) 0)

/-- `SubBytes` on the flat state. -/
def subBytes (s : List Nat) : List Nat := s.map sboxAt

/-- `ShiftRows` on the flat state: row `r` rotates left by `r`. -/
def shiftRows (s : List Nat) : List Nat :=
  (List.range 16).map (fun i => s.getD ((i % 4) + 4 * (((i / 4) + (i % 4)) % 4)) 0)

/-- Multiplication by x in GF(2^8) (`xtime`). -/
def xtime (b : Nat) : Nat :=
  ((b <<< 1) ^^^ (if b &&& 0x80 == 0 then 0 else 0x1b)) &&& 0xFF

/-- `MixColumns` on the flat state. -/
def mixColumns (s : List Nat) : List Nat :=
  (List.range 16).map (fun i =>
    let c := i / 4
    let a0 := s.getD (4 * c) 0
    let a1 := s.getD (4 * c + 1) 0
    let a2 := s.getD (4 * c + 2) 0
    let a3 := s.getD (4 * c + 3) 0
    match i % 4 with
    | 0 => xtime a0 ^^^ (xtime a1 ^^^ a1) ^^^ a2 ^^^ a3
    | 1 => a0 ^^^ xtime a1 ^^^ (xtime a2 ^^^ a2) ^^^ a3
    | 2 => a0 ^^^ a1 ^^^ xtime a2 ^^^ (xtime a3 ^^^ a3)
    | _ => (xtime a0 ^^^ a0) ^^^ a1 ^^^ a2 ^^^ xtime a3)

/-- AES-128 single-block encryption (`aesEncryptBlock` in aes.ts; the
CryptoJS primitive modelled from the spec as standard FIPS-197 AES-128). -/
def aesEncryptBlock (key block : List Nat) : List Nat :=
  let ws := keySchedule key
  let s0 := xorBytes block (roundKey ws 0)
  let s := (List.range 9).foldl
    (fun s r => xorBytes (mixColumns (shiftRows (subBytes s))) (roundKey ws (r + 1))) s0
  xorBytes (shiftRows (subBytes s)) (roundKey ws 10)

set_option maxRecDepth 4000000

/-! ## CMAC (src/crypto/cmac.ts) -/

/-- CMAC subkey generation (`generateCMACSubkeys` in aes.ts, NIST SP 800-38B):
`L = E_K(0^128)`, `K1 = L ≪ 1` (⊕ Rb when MSB(L)=1), `K2 = K1 ≪ 1`
(⊕ Rb when MSB(K1)=1). -/
def cmacRb : List Nat := List.replicate 15 0 ++ [0x87]

/-- The CMAC subkey K1: `L = E_K(0^128)` shifted left one bit, XOR `Rb`
when `MSB(L) = 1`. -/
def cmacK1 (key : List Nat) : List Nat :=
  let L := aesEncryptBlock key (List.replicate 16 0)
  if L.getD 0 0 &&& 0x80 == 0 then leftShiftOne L
  else xorBytes (leftShiftOne L) cmacRb

/-- The CMAC subkey K2: K1 shifted left one bit, XOR `Rb` when
`MSB(K1) = 1`. -/
def cmacK2 (key : List Nat) : List Nat :=
  let K1 := cmacK1 key
  if K1.getD 0 0 &&& 0x80 == 0 then leftShiftOne K1
  else xorBytes (leftShiftOne K1) cmacRb

def generateCMACSubkeys (key : List Nat) : List Nat × List Nat :=
  (cmacK1 key, cmacK2 key)

/-- CBC chaining over the non-final blocks (the `for` loop in `cmac`). -/
def cmacChain (key : List Nat) : List Nat → List (List Nat) → List Nat
  | mac, [] => mac
  | mac, b :: bs => cmacChain key (aesEncryptBlock key (xorBytes mac b)) bs

/-- AES-CMAC (`cmac` in cmac.ts). The source throws on key length ≠ 16;
every embedded call site passes a 16-byte key (that guard is modelled where
a claim depends on it, in `deriveKey`). -/
def cmac (key message : List Nat) : List Nat :=
  let sub := generateCMACSubkeys key
  let numBlocks := if message.length == 0 then 1 else (message.length + 15) / 16
  let lastBlockComplete := if message.length == 0 then false
                           else message.length % 16 == 0
  let lastBlock :=
    if lastBlockComplete then
      xorBytes (message.drop ((numBlocks - 1) * 16)) sub.1
    else
      let lastBlockData := message.drop ((numBlocks - 1) * 16)
      let padded := lastBlockData ++ 0x80 :: List.replicate (16 - lastBlockData.length - 1) 0
      xorBytes padded sub.2
  let bodyBlocks := (List.range (numBlocks - 1)).map
    (fun i => (message.drop (i * 16)).take 16)
  let mac := cmacChain key (List.replicate 16 0) bodyBlocks
  aesEncryptBlock key (xorBytes mac lastBlock)

/-- Truncated 8-byte CMAC for SDM (`cmacSDM` in cmac.ts). -/
def cmacSDM (key message : List Nat) : List Nat :=
  (cmac key message).take 8

/-! ## AES-CTR (src/crypto/aes.ts)

The block-cipher chaining itself is done by CryptoJS (not in src/);
modelled from the spec §4.1: "the counter is the IV interpreted as a
big-endian 128-bit integer, incremented per block; the last block's
keystream is truncated to the plaintext length". -/

/-- CTR keystream: one AES block per 16 bytes of data. -/
def ctrKeystream (key iv : List Nat) (nblocks : Nat) : List Nat :=
  ((List.range nblocks).map
    (fun i => aesEncryptBlock key (numberToBytes ((counterVal iv + i) % 2 ^ 128) 16))).flatten

/-- Total core of CTR encryption: XOR with the keystream, truncated to the
data length. -/
def ctrXor (key iv data : List Nat) : List Nat :=
  xorBytes data (ctrKeystream key iv ((data.length + 15) / 16))

/-- `aesEncryptCTR` from aes.ts: errors on key length ≠ 16 or IV length ≠ 16,
otherwise XORs the data with the CTR keystream (output truncated to the
input length). -/
def aesEncryptCTR (key iv data : List Nat) : Option (List Nat) :=
  if key.length ≠ 16 then none
  else if iv.length ≠ 16 then none
  else some (ctrXor key iv data)

/-- `aesDecryptCTR` from aes.ts: CTR decryption is the same operation as
encryption. -/
def aesDecryptCTR (key iv data : List Nat) : Option (List Nat) :=
  aesEncryptCTR key iv data

/-! ## Session key derivation (src/crypto/sessionKeys.ts) -/

/-- ASCII bytes of a string (the `TextEncoder().encode(...)` calls; all
strings involved are ASCII). -/
def strBytes (s : String) : List Nat := s.data.map Char.toNat

/-- All-zero 16-byte session vector (`generateZeroSV`). -/
def zeroSV : List Nat := List.replicate 16 0

/-- `deriveKey` from sessionKeys.ts: NIST SP 800-108 counter-mode KDF with
CMAC as PRF, input `[i]_2 ‖ Label ‖ 0x00 ‖ SV ‖ [L]_2` with `i = 0x0001`
and `L = 0x0080`; errors on master-key length ≠ 16 or SV length ≠ 16. -/
def deriveKey (masterKey sv label : List Nat) : Option (List Nat) :=
  if masterKey.length ≠ 16 then none
  else if sv.length ≠ 16 then none
  else some (cmac masterKey ([0x00, 0x01] ++ label ++ [0x00] ++ sv ++ [0x00, 0x80]))

/-- Session keys for SDM (interface `SDMSessionKeys`). -/
structure SDMSessionKeys where
  KSesSDMFileReadMAC : List Nat
  KSesSDMFileEnc : List Nat

/-- `deriveSDMSessionKeys` from sessionKeys.ts; `sv` defaults to the all-zero
vector when absent. -/
def deriveSDMSessionKeys (K1 K2 : List Nat) (sv : Option (List Nat)) :
    Option SDMSessionKeys :=
  let sessionVector := sv.getD zeroSV
  match deriveKey K1 sessionVector (strBytes "SDMENCFileData"),
        deriveKey K2 sessionVector (strBytes "SDMFileReadMAC") with
  | some enc, some mac => some ⟨mac, enc⟩
  | _, _ => none

/-! ## SDM builder (src/services/SDMService.ts) -/

/-- Result of `generateSDM`. The source stores `encPiccData` and `cmac` as
uppercase-hex strings; they are kept here as the underlying bytes, and the
hex encoding (`bytesToHex`) is applied where the source consumes them, in
`buildLNURL`. -/
structure SDMMessage where
  encPiccData : List Nat
  cmac : List Nat
  piccData : List Nat

/-- `generateSDM` from SDMService.ts: PICCData = UID ‖ Counter (must be 10
bytes), session keys from (encKey, macKey) with default all-zero SV,
EncPICCData = AES-CTR(K_SesEnc, IV = 0^16, PICCData), and the truncated
CMAC over the plaintext PICCData under K_SesMac. -/
def generateSDM (uid counter encKey macKey : List Nat) : Option SDMMessage :=
  let piccData := uid ++ counter
  if piccData.length ≠ 10 then none
  else
    match deriveSDMSessionKeys encKey macKey none with
    | none => none
    | some sessionKeys =>
      match aesEncryptCTR sessionKeys.KSesSDMFileEnc (List.replicate 16 0) piccData with
      | none => none
      | some encrypted => some ⟨encrypted, cmacSDM sessionKeys.KSesSDMFileReadMAC piccData, piccData⟩

/-- One uppercase-hex digit (ASCII code) of a nibble. -/
def hexDigit (n : Nat) : Nat := if n < 10 then 48 + n else 55 + n

/-- Uppercase hex encoding, as ASCII bytes (`bytesToHex` in utils.ts). -/
def bytesToHex (l : List Nat) : List Nat :=
  (l.map (fun b => [hexDigit (b / 16), hexDigit (b % 16)])).flatten

/-- `buildLNURL` from SDMService.ts:
`{base-without-trailing-slash}/{cardId}?p={hex(EncPICCData)}&c={hex(CMAC)}`.
URLs are modelled as their ASCII byte lists (47 = `/`). -/
def buildLNURL (baseUrl cardId : List Nat) (sdmMessage : SDMMessage) : List Nat :=
  let base := if baseUrl.getLast? == some 47 then baseUrl.dropLast else baseUrl
  base ++ [47] ++ cardId ++ strBytes "?p=" ++ bytesToHex sdmMessage.encPiccData
    ++ strBytes "&c=" ++ bytesToHex sdmMessage.cmac

/-- `buildNDEFMessage` from SDMService.ts: a leading `lnurlw://` is replaced
by `https://`; the URI identifier byte is the constant `NDEF.URI_PREFIX_HTTPS
= 0x04`; the payload rest is the URI with a leading `https://` stripped (the
full URI when it has no such scheme). Length fields are single bytes: a
JavaScript `Uint8Array` stores values mod 256. -/
def buildNDEFMessage (lnurlUrl : List Nat) : List Nat :=
  let uri := if (strBytes "lnurlw://").isPrefixOf lnurlUrl
             then strBytes "https://" ++ lnurlUrl.drop 9
             else lnurlUrl
  let uriRest := if (strBytes "https://").isPrefixOf uri then uri.drop 8 else uri
  let fullPayload := 0x04 :: uriRest
  let ndefRecord := [0xD1] ++ [0x01] ++ [fullPayload.length % 256] ++ [0x55] ++ fullPayload
  [0x03] ++ [ndefRecord.length % 256] ++ ndefRecord ++ [0xFE]

/-- `generateNDEFWithSDM` from SDMService.ts. -/
def generateNDEFWithSDM (uid counter encKey macKey lnurlBase cardId : List Nat) :
    Option (List Nat) :=
  (generateSDM uid counter encKey macKey).map
    (fun sdmMessage => buildNDEFMessage (buildLNURL lnurlBase cardId sdmMessage))

/-! ## APDU responses and the READ BINARY state machine
(src/apdu/APDUBuilder.ts, the READ handler, src/services/NTAG424Service.ts,
StorageService). Status words are from constants/apdu.ts, which is not in
src/; modelled from the spec §7 error table. -/

/-- Status words (constants/apdu.ts, modelled from the spec §7). -/
def SW_SUCCESS : Nat := 0x9000

/-- `6982`: READ before a file is selected. -/
def SW_SECURITY_STATUS_NOT_SATISFIED : Nat := 0x6982

/-- `6A82`: unknown file. -/
def SW_FILE_NOT_FOUND : Nat := 0x6A82

/-- `6F00`: unknown / internal error. -/
def SW_UNKNOWN_ERROR : Nat := 0x6F00

/-- Parsed APDU command (src/types/apdu.types.ts). -/
structure APDUCommand where
  CLA : Nat
  INS : Nat
  P1 : Nat
  P2 : Nat
  data : Option (List Nat)
  Le : Option Nat

/-- APDU response (src/types/apdu.types.ts). -/
structure APDUResponse where
  data : Option (List Nat)
  SW1 : Nat
  SW2 : Nat

/-- `buildSuccessResponse` from APDUBuilder.ts. -/
def buildSuccessResponse (data : Option (List Nat)) : APDUResponse :=
  ⟨data, (SW_SUCCESS >>> 8) &&& 0xFF, SW_SUCCESS &&& 0xFF⟩

/-- `buildErrorResponse` from APDUBuilder.ts. -/
def buildErrorResponse (statusWord : Nat) : APDUResponse :=
  ⟨none, (statusWord >>> 8) &&& 0xFF, statusWord &&& 0xFF⟩

/-- `getReadOffset` from commands.ts: offset = P1 ‖ P2, big-endian. -/
def getReadOffset (command : APDUCommand) : Nat :=
  (command.P1 <<< 8) ||| command.P2

/-- `getReadLength` from commands.ts: `Le = 0` means 256; an absent `Le`
yields 0 (`command.Le || 0`). -/
def getReadLength (command : APDUCommand) : Nat :=
  match command.Le with
  | some 0 => 256
  | some n => n
  | none => 0

/-- The Capability Container bytes from the READ handler. -/
def ccFile : List Nat := [0xE1, 0x40, 0x00, 0x40, 0x00, 0x00]

/-- `handleReadCC` from the READ handler: slice `[offset, min(offset+length,
len))`, empty data when reading beyond the end. -/
def handleReadCC (offset length : Nat) : APDUResponse :=
  let endOffset := min (offset + length) ccFile.length
  if ccFile.length ≤ offset then buildSuccessResponse (some [])
  else buildSuccessResponse (some ((ccFile.drop offset).take (endOffset - offset)))

/-- `handleReadNDEF` from the READ handler: same slicing over the generated
NDEF bytes. -/
def handleReadNDEF (offset length : Nat) (ndefData : List Nat) : APDUResponse :=
  let endOffset := min (offset + length) ndefData.length
  if ndefData.length ≤ offset then buildSuccessResponse (some [])
  else buildSuccessResponse (some ((ndefData.drop offset).take (endOffset - offset)))

/-- Tag configuration held by `NTAG424Service` (keys, UID, LNURL base and
card id). -/
structure TagConfig where
  uid : List Nat
  k1 : List Nat
  k2 : List Nat
  lnurlBase : List Nat
  cardId : List Nat

/-- Mutable service state: the selected file, the in-memory 3-byte counter
(`state.counter`), and the persisted counter from the storage config
(`config.counter`, a plain JavaScript number). -/
structure EmuState where
  selectedFileId : Option Nat
  counter : List Nat
  storedCounter : Nat

/-- `incrementCounter` from StorageService.ts: `(config?.counter || 0) + 1`,
persisted as-is — a plain `+ 1` with no 24-bit wrap. -/
def storageIncrementCounter (c : Nat) : Nat := c + 1

/-- `NTAG424Service.handleCounterIncrement`: the in-memory counter is
incremented (with 24-bit wrap) and the storage increment is fired
asynchronously; its failure is only logged, so on failure the stored value
is simply left unchanged while the response proceeds regardless.
`persistOk` models whether that asynchronous persistence succeeds. -/
def applyCounterIncrement (persistOk : Bool) (st : EmuState) : EmuState :=
  { st with
    counter := incrementCounter st.counter,
    storedCounter := if persistOk then storageIncrementCounter st.storedCounter
                     else st.storedCounter }

/-- `NTAG424Service.generateNDEFData`: the NDEF is regenerated from the
current in-memory counter. -/
def generateNDEFData (cfg : TagConfig) (counter : List Nat) : Option (List Nat) :=
  generateNDEFWithSDM cfg.uid counter cfg.k1 cfg.k2 cfg.lnurlBase cfg.cardId

/-- `handleReadBinary` (READ handler) wired to the `NTAG424Service`
callbacks, as in `NTAG424Service.handleReadCommand`: no selected file →
`6982`; file 1 → CC read; file 2 → counter increment when offset = 0,
then the NDEF slice (a generation error would surface as the service's
top-level `6F00`); other files → `6A82`. -/
def handleReadCommand (cfg : TagConfig) (cmd : APDUCommand) (persistOk : Bool)
    (st : EmuState) : APDUResponse × EmuState :=
  match st.selectedFileId with
  | none => (buildErrorResponse SW_SECURITY_STATUS_NOT_SATISFIED, st)
  | some fid =>
    let offset := getReadOffset cmd
    let len := getReadLength cmd
    if fid == 1 then (handleReadCC offset len, st)
    else if fid == 2 then
      let st' := if offset == 0 then applyCounterIncrement persistOk st else st
      match generateNDEFData cfg st'.counter with
      | some ndef => (handleReadNDEF offset len ndef, st')
      | none => (buildErrorResponse SW_UNKNOWN_ERROR, st')
    else (buildErrorResponse SW_FILE_NOT_FOUND, st)

/-- The wire READ BINARY of the NDEF file at offset 0 (`00 B0 00 00 FF`). -/
def readAt0 : APDUCommand := ⟨0x00, 0xB0, 0x00, 0x00, none, some 0xFF⟩

/-- `n` successive READ BINARY commands at offset 0. -/
def readTrace (cfg : TagConfig) (persistOk : Bool) (st : EmuState) : Nat → EmuState
  | 0 => st
  | n + 1 => (handleReadCommand cfg readAt0 persistOk (readTrace cfg persistOk st n)).2

/-! ## Shared lemmas -/

theorem xorBytes_length (a b : List Nat) :
    (xorBytes a b).length = min a.length b.length :=
  List.length_zipWith (fun x y => x ^^^ y) a b

/-- AES block encryption always yields 16 bytes: the final round is an XOR
of a `ShiftRows` output (16 entries by construction) with a round key
(16 entries by construction). -/
theorem aesEncryptBlock_length (key block : List Nat) :
    (aesEncryptBlock key block).length = 16 := by
  simp [aesEncryptBlock, xorBytes, shiftRows, roundKey]

theorem cmac_length (key message : List Nat) : (cmac key message).length = 16 := by
  simp only [cmac]
  exact aesEncryptBlock_length _ _

theorem leftShiftOne_length (l : List Nat) : (leftShiftOne l).length = l.length := by
  induction l with
  | nil => rfl
  | cons b t ih => simpa [leftShiftOne] using ih

theorem cmacRb_length : cmacRb.length = 16 := by simp [cmacRb]

theorem cmacK1_length (key : List Nat) : (cmacK1 key).length = 16 := by
  simp only [cmacK1]
  split <;>
    simp [leftShiftOne_length, aesEncryptBlock_length, xorBytes_length, cmacRb_length]

theorem cmacK2_length (key : List Nat) : (cmacK2 key).length = 16 := by
  simp only [cmacK2]
  split <;>
    simp [leftShiftOne_length, cmacK1_length, xorBytes_length, cmacRb_length]

theorem xorBytes_zero_left (x : List Nat) :
    xorBytes (List.replicate x.length 0) x = x := by
  induction x with
  | nil => rfl
  | cons a t ih =>
    simp only [xorBytes] at ih
    simp only [List.length_cons, List.replicate_succ, xorBytes, List.zipWith_cons_cons, ih]
    rw [Nat.zero_xor]

theorem ctrKeystream_length (key iv : List Nat) (n : Nat) :
    (ctrKeystream key iv n).length = 16 * n := by
  induction n with
  | zero => rfl
  | succ m ih =>
    unfold ctrKeystream at ih ⊢
    rw [List.range_succ, List.map_append, List.flatten_append, List.length_append, ih]
    simp [aesEncryptBlock_length]
    omega

theorem ctrXor_eq (key iv data : List Nat) :
    ctrXor key iv data
      = xorBytes data (ctrKeystream key iv ((data.length + 15) / 16)) := rfl

theorem ctrXor_length (key iv data : List Nat) :
    (ctrXor key iv data).length = data.length := by
  rw [ctrXor_eq, xorBytes_length, ctrKeystream_length]
  omega

theorem zipWith_xor_cancel (d ks : List Nat) (h : d.length ≤ ks.length) :
    xorBytes (xorBytes d ks) ks = d := by
  induction d generalizing ks with
  | nil => simp [xorBytes]
  | cons a t ih =>
    cases ks with
    | nil => simp at h
    | cons k kt =>
      simp only [xorBytes, List.zipWith_cons_cons] at ih ⊢
      rw [ih kt (by simpa using h), Nat.xor_cancel_right]

theorem ctrXor_ctrXor (key iv data : List Nat) :
    ctrXor key iv (ctrXor key iv data) = data := by
  rw [ctrXor_eq key iv (ctrXor key iv data), ctrXor_length, ctrXor_eq key iv data]
  exact zipWith_xor_cancel _ _ (by rw [ctrKeystream_length]; omega)

/-- The spec's formula for `K_SesEnc`. -/
def sesEncKey (encKey : List Nat) : List Nat :=
  cmac encKey ([0x00, 0x01] ++ strBytes "SDMENCFileData" ++ [0x00] ++ zeroSV ++ [0x00, 0x80])

/-- The spec's formula for `K_SesMac`. -/
def sesMacKey (macKey : List Nat) : List Nat :=
  cmac macKey ([0x00, 0x01] ++ strBytes "SDMFileReadMAC" ++ [0x00] ++ zeroSV ++ [0x00, 0x80])

theorem sesEncKey_length (encKey : List Nat) : (sesEncKey encKey).length = 16 :=
  cmac_length _ _

theorem sesMacKey_length (macKey : List Nat) : (sesMacKey macKey).length = 16 :=
  cmac_length _ _

theorem deriveSDMSessionKeys_eq (K1 K2 : List Nat)
    (hk1 : K1.length = 16) (hk2 : K2.length = 16) :
    deriveSDMSessionKeys K1 K2 none = some ⟨sesMacKey K2, sesEncKey K1⟩ := by
  simp [deriveSDMSessionKeys, deriveKey, hk1, hk2, zeroSV, sesMacKey, sesEncKey]

theorem generateSDM_eq (uid counter encKey macKey : List Nat)
    (hu : uid.length = 7) (hc : counter.length = 3)
    (he : encKey.length = 16) (hm : macKey.length = 16) :
    generateSDM uid counter encKey macKey
      = some ⟨ctrXor (sesEncKey encKey) (List.replicate 16 0) (uid ++ counter),
              (cmac (sesMacKey macKey) (uid ++ counter)).take 8,
              uid ++ counter⟩ := by
  have hpicc : (uid ++ counter).length = 10 := by simp [hu, hc]
  simp [generateSDM, hpicc, deriveSDMSessionKeys_eq encKey macKey he hm,
    aesEncryptCTR, sesEncKey_length, cmacSDM]

theorem counterVal_lt {l : List Nat} (h3 : l.length = 3) (hb : ∀ b ∈ l, b < 256) :
    counterVal l < 16777216 := by
  match l, h3 with
  | [a, b, c], _ =>
    have ha := hb a (by simp)
    have hb2 := hb b (by simp)
    have hc2 := hb c (by simp)
    simp [counterVal]
    omega

/-- The 3-byte counter increment is the increment modulo 2²⁴ of the
big-endian value, and it preserves well-formedness. -/
theorem incrementCounter_spec {l : List Nat} (h3 : l.length = 3)
    (hb : ∀ b ∈ l, b < 256) :
    (incrementCounter l).length = 3 ∧ (∀ b ∈ incrementCounter l, b < 256) ∧
    counterVal (incrementCounter l) = (counterVal l + 1) % 16777216 := by
  match l, h3 with
  | [a, b, c], _ =>
    have ha := hb a (by simp)
    have hb2 := hb b (by simp)
    have hc2 := hb c (by simp)
    by_cases hc : c = 0xFF
    · by_cases hbb : b = 0xFF
      · by_cases haa : a = 0xFF
        · subst hc; subst hbb; subst haa; decide
        · subst hc; subst hbb
          have he : incrementCounter [a, 0xFF, 0xFF] = [a + 1, 0, 0] := by
            simp [incrementCounter, incCounterAux, haa]
          rw [he]
          refine ⟨rfl, ?_, ?_⟩
          · intro x hx
            simp at hx
            rcases hx with h | h | h <;> omega
          · simp [counterVal]
            omega
      · subst hc
        have he : incrementCounter [a, b, 0xFF] = [a, b + 1, 0] := by
          simp [incrementCounter, incCounterAux, hbb]
        rw [he]
        refine ⟨rfl, ?_, ?_⟩
        · intro x hx
          simp at hx
          rcases hx with h | h | h <;> omega
        · simp [counterVal]
          omega
    · have he : incrementCounter [a, b, c] = [a, b, c + 1] := by
        simp [incrementCounter, incCounterAux, hc]
      rw [he]
      refine ⟨rfl, ?_, ?_⟩
      · intro x hx
        simp at hx
        rcases hx with h | h | h <;> omega
      · simp [counterVal]
        omega

/-! ## State-machine lemmas -/

theorem handleRead_at0_snd (cfg : TagConfig) (persistOk : Bool) (st : EmuState)
    (hsel : st.selectedFileId = some 2) :
    (handleReadCommand cfg readAt0 persistOk st).2 = applyCounterIncrement persistOk st := by
  simp only [handleReadCommand, hsel]
  rw [show getReadOffset readAt0 = 0 from rfl]
  cases hg : generateNDEFData cfg (applyCounterIncrement persistOk st).counter <;>
    simp [hg]

theorem handleRead_at0_fst (cfg : TagConfig) (persistOk : Bool) (st : EmuState)
    (ndef : List Nat) (hsel : st.selectedFileId = some 2)
    (hg : generateNDEFData cfg (applyCounterIncrement persistOk st).counter = some ndef) :
    (handleReadCommand cfg readAt0 persistOk st).1 = handleReadNDEF 0 255 ndef := by
  simp only [handleReadCommand, hsel]
  rw [show getReadOffset readAt0 = 0 from rfl]
  rw [show getReadLength readAt0 = 255 from rfl]
  simp [hg]

theorem applyCounterIncrement_sel (persistOk : Bool) (st : EmuState) :
    (applyCounterIncrement persistOk st).selectedFileId = st.selectedFileId := rfl

theorem applyCounterIncrement_counter (persistOk : Bool) (st : EmuState) :
    (applyCounterIncrement persistOk st).counter = incrementCounter st.counter := rfl

theorem generateNDEFData_eq (cfg : TagConfig) (counter : List Nat)
    (hu : cfg.uid.length = 7) (h3 : counter.length = 3)
    (hk1 : cfg.k1.length = 16) (hk2 : cfg.k2.length = 16) :
    generateNDEFData cfg counter
      = some (buildNDEFMessage (buildLNURL cfg.lnurlBase cfg.cardId
          ⟨ctrXor (sesEncKey cfg.k1) (List.replicate 16 0) (cfg.uid ++ counter),
           (cmac (sesMacKey cfg.k2) (cfg.uid ++ counter)).take 8,
           cfg.uid ++ counter⟩)) := by
  simp [generateNDEFData, generateNDEFWithSDM,
    generateSDM_eq cfg.uid counter cfg.k1 cfg.k2 hu h3 hk1 hk2]

/-- Along a trace of READ BINARY commands at offset 0 the file stays
selected, the counter stays a well-formed 3-byte value, and its value after
`n` reads is the start value plus `n`, modulo 2²⁴. -/
theorem readTrace_spec (cfg : TagConfig) (persistOk : Bool) (st : EmuState)
    (hsel : st.selectedFileId = some 2) (h3 : st.counter.length = 3)
    (hb : ∀ b ∈ st.counter, b < 256) (n : Nat) :
    (readTrace cfg persistOk st n).selectedFileId = some 2 ∧
    (readTrace cfg persistOk st n).counter.length = 3 ∧
    (∀ b ∈ (readTrace cfg persistOk st n).counter, b < 256) ∧
    counterVal (readTrace cfg persistOk st n).counter
      = (counterVal st.counter + n) % 16777216 := by
  induction n with
  | zero => exact ⟨hsel, h3, hb, (Nat.mod_eq_of_lt (counterVal_lt h3 hb)).symm⟩
  | succ m ih =>
    obtain ⟨ihsel, ih3, ihb, ihval⟩ := ih
    obtain ⟨l3, lb, lval⟩ := incrementCounter_spec ih3 ihb
    rw [readTrace, handleRead_at0_snd cfg persistOk _ ihsel]
    rw [applyCounterIncrement_sel, applyCounterIncrement_counter]
    refine ⟨ihsel, l3, lb, ?_⟩
    rw [lval, ihval]
    omega

theorem xorBytes_zero16 (x : List Nat) (h : x.length = 16) :
    xorBytes (List.replicate 16 0) x = x := by
  rw [← h]
  exact xorBytes_zero_left x

/-- A single full block is XORed with K1 and encrypted, starting from the
zero CBC IV. -/
theorem isPrefixOf_length_le (a : List Nat) : ∀ b : List Nat,
    a.isPrefixOf b = true → a.length ≤ b.length := by
  induction a with
  | nil => intro b _; simp
  | cons x xs ih =>
    intro b hb
    cases b with
    | nil => simp [List.isPrefixOf] at hb
    | cons y ys =>
      simp only [List.isPrefixOf, Bool.and_eq_true] at hb
      have := ih ys hb.2
      simp only [List.length_cons]
      omega

theorem xorBytes_zero16lit (x : List Nat) (h : x.length = 16) :
    xorBytes [0, 0, 0, 0, 0, 0, 0, 0, 0, 0, 0, 0, 0, 0, 0, 0] x = x :=
  xorBytes_zero16 x h

theorem cmac_full_block_eq (key msg : List Nat) (h : msg.length = 16) :
    cmac key msg = aesEncryptBlock key (xorBytes msg (cmacK1 key)) := by
  have hx : (xorBytes msg (cmacK1 key)).length = 16 := by
    rw [xorBytes_length, h, cmacK1_length]
    decide
  simp [cmac, h, generateCMACSubkeys, cmacChain]
  rw [xorBytes_zero16lit _ hx]

/-- The empty message is treated as the padded block `0x80 00…00 ⊕ K2`. -/
theorem cmac_empty_eq (key : List Nat) :
    cmac key []
      = aesEncryptBlock key (xorBytes (0x80 :: List.replicate 15 0) (cmacK2 key)) := by
  have hx : (xorBytes (0x80 :: List.replicate 15 0) (cmacK2 key)).length = 16 := by
    rw [xorBytes_length, cmacK2_length]
    simp
  simp [cmac, generateCMACSubkeys, cmacChain]
  rw [show (128 :: List.replicate 15 0 : List Nat)
      = [128, 0, 0, 0, 0, 0, 0, 0, 0, 0, 0, 0, 0, 0, 0, 0] from rfl] at hx
  rw [xorBytes_zero16lit _ hx]

/-- A partial final block is padded with `0x80` then zeros and XORed
with K2. -/
theorem cmac_short_final_eq (key msg : List Nat) (hne : msg ≠ []) (hlt : msg.length < 16) :
    cmac key msg = aesEncryptBlock key
      (xorBytes (msg ++ 0x80 :: List.replicate (15 - msg.length) 0) (cmacK2 key)) := by
  have h0 : msg.length ≠ 0 := fun hval => hne (List.length_eq_zero.mp hval)
  have hb0 : (msg.length == 0) = false := by simp [h0]
  have hdiv : (msg.length + 15) / 16 = 1 := by omega
  have hmod : msg.length % 16 = msg.length := Nat.mod_eq_of_lt hlt
  have hsub : 16 - msg.length - 1 = 15 - msg.length := by omega
  have hx : (xorBytes (msg ++ 0x80 :: List.replicate (15 - msg.length) 0)
      (cmacK2 key)).length = 16 := by
    rw [xorBytes_length, cmacK2_length]
    simp
    omega
  simp [cmac, hb0, hdiv, hmod, hsub, generateCMACSubkeys, cmacChain]
  rw [xorBytes_zero16lit _ hx]

/-- The end-to-end fixture: UID `04AABBCCDDEEFF`, all-zero K1 and K2,
base URL `https://a`, card id `b` (spec §8 scenario inputs). -/
def cfgW : TagConfig :=
  ⟨[0x04, 0xAA, 0xBB, 0xCC, 0xDD, 0xEE, 0xFF], List.replicate 16 0,
   List.replicate 16 0, strBytes "https://a", strBytes "b"⟩

/-- Fresh state: NDEF file selected, counter `000000`, stored counter 0. -/
def stFresh : EmuState := ⟨some 2, [0x00, 0x00, 0x00], 0⟩

/-- Near-wrap state: NDEF file selected, counter `FFFFFE`, stored counter
`0xFFFFFE`. -/
def stWrap : EmuState := ⟨some 2, [0xFF, 0xFF, 0xFE], 0xFFFFFE⟩

/-! ## Claims -/

/-- C1: every SDM message built from a 7-byte UID, 3-byte counter and
16-byte keys has `EncPICCData` that AES-CTR-decrypts under `K_SesEnc` with a
zero IV to exactly UID ‖ Counter, and `SDM_MAC` equal to the leftmost 8
bytes of the CMAC under `K_SesMac` over the plaintext PICCData. -/
theorem C1_sdm_decrypts_and_macs_plaintext (uid counter encKey macKey : List Nat)
    (hu : uid.length = 7) (hc : counter.length = 3)
    (he : encKey.length = 16) (hm : macKey.length = 16) :
    ∃ sdm : SDMMessage, ∃ sessionKeys : SDMSessionKeys,
      generateSDM uid counter encKey macKey = some sdm ∧
      deriveSDMSessionKeys encKey macKey none = some sessionKeys ∧
      sdm.encPiccData.length = 10 ∧
      aesDecryptCTR sessionKeys.KSesSDMFileEnc (List.replicate 16 0) sdm.encPiccData
        = some (uid ++ counter) ∧
      sdm.cmac = (cmac sessionKeys.KSesSDMFileReadMAC (uid ++ counter)).take 8 := by
  refine ⟨⟨ctrXor (sesEncKey encKey) (List.replicate 16 0) (uid ++ counter),
           (cmac (sesMacKey macKey) (uid ++ counter)).take 8, uid ++ counter⟩,
          ⟨sesMacKey macKey, sesEncKey encKey⟩,
          generateSDM_eq uid counter encKey macKey hu hc he hm,
          deriveSDMSessionKeys_eq encKey macKey he hm, ?_, ?_, rfl⟩
  · rw [ctrXor_length]
    simp [hu, hc]
  · show aesDecryptCTR (sesEncKey encKey) (List.replicate 16 0)
        (ctrXor (sesEncKey encKey) (List.replicate 16 0) (uid ++ counter))
      = some (uid ++ counter)
    simp [aesDecryptCTR, aesEncryptCTR, sesEncKey_length, ctrXor_ctrXor]

/-- Witness for C1 at the spec's end-to-end scenario inputs
(UID `04AABBCCDDEEFF`, counter `000000`, all-zero keys). -/
theorem C1_witness :
    ([0x04, 0xAA, 0xBB, 0xCC, 0xDD, 0xEE, 0xFF] : List Nat).length = 7 ∧
    ([0, 0, 0] : List Nat).length = 3 ∧
    (List.replicate 16 (0 : Nat)).length = 16 ∧
    (∃ sdm : SDMMessage, ∃ sessionKeys : SDMSessionKeys,
      generateSDM [0x04, 0xAA, 0xBB, 0xCC, 0xDD, 0xEE, 0xFF] [0, 0, 0]
          (List.replicate 16 0) (List.replicate 16 0) = some sdm ∧
      deriveSDMSessionKeys (List.replicate 16 0) (List.replicate 16 0) none = some sessionKeys ∧
      sdm.encPiccData.length = 10 ∧
      aesDecryptCTR sessionKeys.KSesSDMFileEnc (List.replicate 16 0) sdm.encPiccData
        = some ([0x04, 0xAA, 0xBB, 0xCC, 0xDD, 0xEE, 0xFF] ++ [0, 0, 0]) ∧
      sdm.cmac = (cmac sessionKeys.KSesSDMFileReadMAC
          ([0x04, 0xAA, 0xBB, 0xCC, 0xDD, 0xEE, 0xFF] ++ [0, 0, 0])).take 8) :=
  ⟨by decide, by decide, by decide,
   C1_sdm_decrypts_and_macs_plaintext _ _ _ _ (by decide) (by decide) (by decide) (by decide)⟩

/-- C5: the session keys are single-iteration CMAC-PRF derivations with the
spec's inputs, and `deriveKey` errors exactly on bad master-key or SV
lengths. -/
theorem C5_session_key_derivation (K1 K2 : List Nat)
    (hk1 : K1.length = 16) (hk2 : K2.length = 16) :
    deriveSDMSessionKeys K1 K2 none = some ⟨sesMacKey K2, sesEncKey K1⟩ ∧
    (∀ masterKey sv label : List Nat, masterKey.length ≠ 16 →
        deriveKey masterKey sv label = none) ∧
    (∀ masterKey sv label : List Nat, sv.length ≠ 16 →
        deriveKey masterKey sv label = none) ∧
    (∀ masterKey sv label : List Nat, masterKey.length = 16 → sv.length = 16 →
        deriveKey masterKey sv label
          = some (cmac masterKey ([0x00, 0x01] ++ label ++ [0x00] ++ sv ++ [0x00, 0x80]))) := by
  refine ⟨deriveSDMSessionKeys_eq K1 K2 hk1 hk2, ?_, ?_, ?_⟩
  · intro masterKey sv label h
    simp [deriveKey, h]
  · intro masterKey sv label h
    by_cases hmk : masterKey.length = 16 <;> simp [deriveKey, h, hmk]
  · intro masterKey sv label h1 h2
    simp [deriveKey, h1, h2]

/-- Witness for C5 at all-zero master keys. -/
theorem C5_witness :
    (List.replicate 16 (0 : Nat)).length = 16 ∧
    (deriveSDMSessionKeys (List.replicate 16 0) (List.replicate 16 0) none
        = some ⟨sesMacKey (List.replicate 16 0), sesEncKey (List.replicate 16 0)⟩ ∧
     (∀ masterKey sv label : List Nat, masterKey.length ≠ 16 →
        deriveKey masterKey sv label = none) ∧
     (∀ masterKey sv label : List Nat, sv.length ≠ 16 →
        deriveKey masterKey sv label = none) ∧
     (∀ masterKey sv label : List Nat, masterKey.length = 16 → sv.length = 16 →
        deriveKey masterKey sv label
          = some (cmac masterKey ([0x00, 0x01] ++ label ++ [0x00] ++ sv ++ [0x00, 0x80])))) :=
  ⟨by decide, C5_session_key_derivation _ _ (by decide) (by decide)⟩

/-- C6: AES-CTR with a 16-byte key and IV succeeds, preserves the data
length exactly, and is self-inverse. -/
theorem C6_ctr_self_inverse (key iv data : List Nat)
    (hk : key.length = 16) (hiv : iv.length = 16) :
    aesEncryptCTR key iv data = some (ctrXor key iv data) ∧
    (ctrXor key iv data).length = data.length ∧
    aesEncryptCTR key iv (ctrXor key iv data) = some data := by
  refine ⟨by simp [aesEncryptCTR, hk, hiv], ctrXor_length key iv data, ?_⟩
  simp [aesEncryptCTR, hk, hiv, ctrXor_ctrXor]

/-- Witness for C6 with an all-zero key and IV on a 3-byte input. -/
theorem C6_witness :
    (List.replicate 16 (0 : Nat)).length = 16 ∧
    (aesEncryptCTR (List.replicate 16 0) (List.replicate 16 0) [1, 2, 3]
        = some (ctrXor (List.replicate 16 0) (List.replicate 16 0) [1, 2, 3]) ∧
     (ctrXor (List.replicate 16 0) (List.replicate 16 0) [1, 2, 3]).length
        = ([1, 2, 3] : List Nat).length ∧
     aesEncryptCTR (List.replicate 16 0) (List.replicate 16 0)
        (ctrXor (List.replicate 16 0) (List.replicate 16 0) [1, 2, 3]) = some [1, 2, 3]) :=
  ⟨by decide, C6_ctr_self_inverse _ _ _ (by decide) (by decide)⟩

/-- C8 counterexample: for the URL `http://a`, which does not begin with
`https://`, the emitted URI identifier byte (position 6 of the NDEF message)
is 0x04, not the 0x00 the claim requires. -/
theorem C8_counterexample :
    (buildNDEFMessage (strBytes "http://a")).getD 6 0 = 0x04 ∧ (0x04 : Nat) ≠ 0x00 := by
  decide

/-- C8 (amended): the URI identifier byte is always 0x04; when the URL
begins with `https://` the payload rest is the URL without that prefix, and
otherwise the rest is the full URL unchanged (still under identifier 0x04). -/
theorem C8_amended_identifier_always_https (url : List Nat)
    (hn : (strBytes "lnurlw://").isPrefixOf url = false) :
    (buildNDEFMessage url).getD 6 0 = 0x04 ∧
    ((strBytes "https://").isPrefixOf url = true →
      buildNDEFMessage url
        = [0x03, (url.length - 3) % 256, 0xD1, 0x01, (url.length - 7) % 256, 0x55, 0x04]
            ++ url.drop 8 ++ [0xFE]) ∧
    ((strBytes "https://").isPrefixOf url = false →
      buildNDEFMessage url
        = [0x03, (url.length + 5) % 256, 0xD1, 0x01, (url.length + 1) % 256, 0x55, 0x04]
            ++ url ++ [0xFE]) := by
  constructor
  · simp only [buildNDEFMessage, hn]
    split <;> rfl
  constructor
  · intro h
    have hp : 8 ≤ url.length := by
      have h8 := isPrefixOf_length_le (strBytes "https://") url h
      have hlen : (strBytes "https://").length = 8 := by decide
      omega
    simp only [buildNDEFMessage, hn, Bool.false_eq_true, if_false, h, if_true]
    simp [List.length_drop]
    constructor <;> omega
  · intro h
    simp only [buildNDEFMessage, hn, Bool.false_eq_true, if_false, h]
    simp

/-- Witness for the amended C8 at the non-https URL `http://a`. -/
theorem C8_amended_witness :
    (strBytes "lnurlw://").isPrefixOf (strBytes "http://a") = false ∧
    ((buildNDEFMessage (strBytes "http://a")).getD 6 0 = 0x04 ∧
     ((strBytes "https://").isPrefixOf (strBytes "http://a") = true →
       buildNDEFMessage (strBytes "http://a")
         = [0x03, ((strBytes "http://a").length - 3) % 256, 0xD1, 0x01,
            ((strBytes "http://a").length - 7) % 256, 0x55, 0x04]
             ++ (strBytes "http://a").drop 8 ++ [0xFE]) ∧
     ((strBytes "https://").isPrefixOf (strBytes "http://a") = false →
       buildNDEFMessage (strBytes "http://a")
         = [0x03, ((strBytes "http://a").length + 5) % 256, 0xD1, 0x01,
            ((strBytes "http://a").length + 1) % 256, 0x55, 0x04]
             ++ strBytes "http://a" ++ [0xFE])) :=
  ⟨by decide, C8_amended_identifier_always_https _ (by decide)⟩

/-- C9: for a URL whose NDEF message exceeds 254 bytes (here `https://`
followed by 300 `a`s, record length 305), the builder neither truncates nor
fails: it emits the full message with a single wrapped length byte
`305 % 256 = 49` (and payload length byte `301 % 256 = 45`), a malformed
length field. -/
theorem C9_overlong_emits_wrapped_length_byte :
    (buildNDEFMessage (strBytes "https://" ++ List.replicate 300 97)).length = 308 ∧
    (buildNDEFMessage (strBytes "https://" ++ List.replicate 300 97)).getD 1 0 = 49 ∧
    (buildNDEFMessage (strBytes "https://" ++ List.replicate 300 97)).length - 3 = 305 ∧
    (49 : Nat) ≠ 305 ∧
    (buildNDEFMessage (strBytes "https://" ++ List.replicate 300 97)).getD 4 0 = 45 := by
  decide

/-- C10: a READ BINARY of the NDEF file at a non-zero offset leaves the
whole state — in particular the in-memory and the persisted counter —
unchanged, and answers with a slice of the NDEF regenerated from the same
counter. -/
theorem C10_nonzero_offset_read_frame (cfg : TagConfig) (cmd : APDUCommand)
    (persistOk : Bool) (st : EmuState)
    (hsel : st.selectedFileId = some 2) (hoff : getReadOffset cmd ≠ 0) :
    (handleReadCommand cfg cmd persistOk st).2 = st ∧
    (handleReadCommand cfg cmd persistOk st).2.counter = st.counter ∧
    (handleReadCommand cfg cmd persistOk st).2.storedCounter = st.storedCounter ∧
    (∀ ndef, generateNDEFData cfg st.counter = some ndef →
      (handleReadCommand cfg cmd persistOk st).1
        = handleReadNDEF (getReadOffset cmd) (getReadLength cmd) ndef) := by
  have hb : (getReadOffset cmd == 0) = false := by simpa using hoff
  have h2 : (handleReadCommand cfg cmd persistOk st).2 = st := by
    simp only [handleReadCommand, hsel]
    cases hg : generateNDEFData cfg st.counter <;> simp [hg, hb]
  refine ⟨h2, by rw [h2], by rw [h2], ?_⟩
  intro ndef hg
  simp only [handleReadCommand, hsel]
  simp [hb, hg]

/-- Witness for C10: a READ BINARY at offset 1 on a concrete state. -/
theorem C10_witness :
    (EmuState.mk (some 2) [0, 0, 0] 0).selectedFileId = some 2 ∧
    getReadOffset ⟨0x00, 0xB0, 0x00, 0x01, none, some 0xFF⟩ ≠ 0 ∧
    ((handleReadCommand ⟨[0x04, 0xAA, 0xBB, 0xCC, 0xDD, 0xEE, 0xFF],
        List.replicate 16 0, List.replicate 16 0, strBytes "https://a", strBytes "b"⟩
        ⟨0x00, 0xB0, 0x00, 0x01, none, some 0xFF⟩ true
        (EmuState.mk (some 2) [0, 0, 0] 0)).2 = EmuState.mk (some 2) [0, 0, 0] 0 ∧
     (handleReadCommand ⟨[0x04, 0xAA, 0xBB, 0xCC, 0xDD, 0xEE, 0xFF],
        List.replicate 16 0, List.replicate 16 0, strBytes "https://a", strBytes "b"⟩
        ⟨0x00, 0xB0, 0x00, 0x01, none, some 0xFF⟩ true
        (EmuState.mk (some 2) [0, 0, 0] 0)).2.counter = [0, 0, 0] ∧
     (handleReadCommand ⟨[0x04, 0xAA, 0xBB, 0xCC, 0xDD, 0xEE, 0xFF],
        List.replicate 16 0, List.replicate 16 0, strBytes "https://a", strBytes "b"⟩
        ⟨0x00, 0xB0, 0x00, 0x01, none, some 0xFF⟩ true
        (EmuState.mk (some 2) [0, 0, 0] 0)).2.storedCounter = 0 ∧
     (∀ ndef, generateNDEFData ⟨[0x04, 0xAA, 0xBB, 0xCC, 0xDD, 0xEE, 0xFF],
        List.replicate 16 0, List.replicate 16 0, strBytes "https://a", strBytes "b"⟩
          [0, 0, 0] = some ndef →
       (handleReadCommand ⟨[0x04, 0xAA, 0xBB, 0xCC, 0xDD, 0xEE, 0xFF],
          List.replicate 16 0, List.replicate 16 0, strBytes "https://a", strBytes "b"⟩
          ⟨0x00, 0xB0, 0x00, 0x01, none, some 0xFF⟩ true
          (EmuState.mk (some 2) [0, 0, 0] 0)).1
         = handleReadNDEF (getReadOffset ⟨0x00, 0xB0, 0x00, 0x01, none, some 0xFF⟩)
             (getReadLength ⟨0x00, 0xB0, 0x00, 0x01, none, some 0xFF⟩) ndef)) :=
  ⟨rfl, by decide, C10_nonzero_offset_read_frame _ _ _ _ rfl (by decide)⟩

/-- C2: each successful READ BINARY of the NDEF file at offset 0 increments
the counter by 1 modulo 2²⁴ before the NDEF is generated, so the counters
embedded in N successive responses are strictly increasing modulo 2²⁴ with
step exactly 1: after `n` reads the counter value is the start value plus
`n` (mod 2²⁴), and the `n`-th response is a slice of the NDEF generated from
the newly incremented counter. -/
theorem C2_counters_increase_step_one (cfg : TagConfig) (persistOk : Bool)
    (st : EmuState) (hsel : st.selectedFileId = some 2)
    (h3 : st.counter.length = 3) (hb : ∀ b ∈ st.counter, b < 256)
    (hu : cfg.uid.length = 7) (hk1 : cfg.k1.length = 16) (hk2 : cfg.k2.length = 16) :
    (∀ n, counterVal (readTrace cfg persistOk st n).counter
        = (counterVal st.counter + n) % 2 ^ 24) ∧
    (∀ n, ∃ ndef,
        generateNDEFData cfg (readTrace cfg persistOk st (n + 1)).counter = some ndef ∧
        (handleReadCommand cfg readAt0 persistOk (readTrace cfg persistOk st n)).1
          = handleReadNDEF 0 255 ndef) := by
  have h24 : (2 : Nat) ^ 24 = 16777216 := by norm_num
  constructor
  · intro n
    rw [h24]
    exact (readTrace_spec cfg persistOk st hsel h3 hb n).2.2.2
  · intro n
    obtain ⟨nsel, n3, nb, -⟩ := readTrace_spec cfg persistOk st hsel h3 hb n
    have hstep : readTrace cfg persistOk st (n + 1)
        = (handleReadCommand cfg readAt0 persistOk (readTrace cfg persistOk st n)).2 := rfl
    rw [handleRead_at0_snd cfg persistOk _ nsel] at hstep
    have hc3 : (readTrace cfg persistOk st (n + 1)).counter.length = 3 := by
      rw [hstep, applyCounterIncrement_counter]
      exact (incrementCounter_spec n3 nb).1
    refine ⟨_, generateNDEFData_eq cfg _ hu hc3 hk1 hk2, ?_⟩
    exact handleRead_at0_fst cfg persistOk _ _ nsel
      (by rw [← hstep]; exact generateNDEFData_eq cfg _ hu hc3 hk1 hk2)

/-- Witness for C2 on the concrete fixture. -/
theorem C2_witness :
    stFresh.selectedFileId = some 2 ∧ stFresh.counter.length = 3 ∧
    (∀ b ∈ stFresh.counter, b < 256) ∧ cfgW.uid.length = 7 ∧
    cfgW.k1.length = 16 ∧ cfgW.k2.length = 16 ∧
    ((∀ n, counterVal (readTrace cfgW true stFresh n).counter
        = (counterVal stFresh.counter + n) % 2 ^ 24) ∧
     (∀ n, ∃ ndef,
        generateNDEFData cfgW (readTrace cfgW true stFresh (n + 1)).counter = some ndef ∧
        (handleReadCommand cfgW readAt0 true (readTrace cfgW true stFresh n)).1
          = handleReadNDEF 0 255 ndef)) :=
  ⟨rfl, rfl, by decide, rfl, by decide, by decide,
   C2_counters_increase_step_one cfgW true stFresh rfl rfl (by decide) rfl
     (by decide) (by decide)⟩

/-- C3 (divergence evidence): when persistence of the incremented counter
fails (`persistOk = false`), the READ at offset 0 still answers `9000` with
the 53-byte NDEF containing ciphertext for the incremented counter
(`000001`), and the stored counter is left at its old value — the emulator
does not answer `6F00` and does not withhold the ciphertext. -/
theorem C3_persist_failure_still_returns_ciphertext :
    (handleReadCommand cfgW readAt0 false stFresh).1.SW1 = 0x90 ∧
    (handleReadCommand cfgW readAt0 false stFresh).1.SW2 = 0x00 ∧
    (handleReadCommand cfgW readAt0 false stFresh).1.data.isSome = true ∧
    ((handleReadCommand cfgW readAt0 false stFresh).1.data.getD []).length = 53 ∧
    (handleReadCommand cfgW readAt0 false stFresh).2.counter = [0x00, 0x00, 0x01] ∧
    (handleReadCommand cfgW readAt0 false stFresh).2.storedCounter
      = stFresh.storedCounter := by
  decide

/-- C4: the CMAC follows NIST SP 800-38B — a full final block is XORed with
K1, the empty message and a partial final block are padded with `0x80` then
zeros and XORed with K2, CBC-chaining starts from a zero IV — and the NIST
SP 800-38B Example 1/2 vectors hold. -/
theorem C4_cmac_implements_sp800_38b :
    (∀ key msg : List Nat, msg.length = 16 →
        cmac key msg = aesEncryptBlock key (xorBytes msg (cmacK1 key))) ∧
    (∀ key : List Nat,
        cmac key []
          = aesEncryptBlock key (xorBytes (0x80 :: List.replicate 15 0) (cmacK2 key))) ∧
    (∀ key msg : List Nat, msg ≠ [] → msg.length < 16 →
        cmac key msg = aesEncryptBlock key
          (xorBytes (msg ++ 0x80 :: List.replicate (15 - msg.length) 0) (cmacK2 key))) ∧
    cmac [0x2B, 0x7E, 0x15, 0x16, 0x28, 0xAE, 0xD2, 0xA6,
          0xAB, 0xF7, 0x15, 0x88, 0x09, 0xCF, 0x4F, 0x3C] []
      = [0xBB, 0x1D, 0x69, 0x29, 0xE9, 0x59, 0x37, 0x28,
         0x7F, 0xA3, 0x7D, 0x12, 0x9B, 0x75, 0x67, 0x46] ∧
    cmac [0x2B, 0x7E, 0x15, 0x16, 0x28, 0xAE, 0xD2, 0xA6,
          0xAB, 0xF7, 0x15, 0x88, 0x09, 0xCF, 0x4F, 0x3C]
         [0x6B, 0xC1, 0xBE, 0xE2, 0x2E, 0x40, 0x9F, 0x96,
          0xE9, 0x3D, 0x7E, 0x11, 0x73, 0x93, 0x17, 0x2A]
      = [0x07, 0x0A, 0x16, 0xB4, 0x6B, 0x4D, 0x41, 0x44,
         0xF7, 0x9B, 0xDD, 0x9D, 0xD0, 0x4A, 0x28, 0x7C] :=
  ⟨cmac_full_block_eq, cmac_empty_eq, cmac_short_final_eq, by decide, by decide⟩

/-- Witness for C4 on the NIST key with a full 16-byte block and a 1-byte
partial block. -/
theorem C4_witness :
    (([0x6B, 0xC1, 0xBE, 0xE2, 0x2E, 0x40, 0x9F, 0x96,
       0xE9, 0x3D, 0x7E, 0x11, 0x73, 0x93, 0x17, 0x2A] : List Nat).length = 16 ∧
     cmac [0x2B, 0x7E, 0x15, 0x16, 0x28, 0xAE, 0xD2, 0xA6,
           0xAB, 0xF7, 0x15, 0x88, 0x09, 0xCF, 0x4F, 0x3C]
          [0x6B, 0xC1, 0xBE, 0xE2, 0x2E, 0x40, 0x9F, 0x96,
           0xE9, 0x3D, 0x7E, 0x11, 0x73, 0x93, 0x17, 0x2A]
       = aesEncryptBlock [0x2B, 0x7E, 0x15, 0x16, 0x28, 0xAE, 0xD2, 0xA6,
                          0xAB, 0xF7, 0x15, 0x88, 0x09, 0xCF, 0x4F, 0x3C]
           (xorBytes [0x6B, 0xC1, 0xBE, 0xE2, 0x2E, 0x40, 0x9F, 0x96,
                      0xE9, 0x3D, 0x7E, 0x11, 0x73, 0x93, 0x17, 0x2A]
             (cmacK1 [0x2B, 0x7E, 0x15, 0x16, 0x28, 0xAE, 0xD2, 0xA6,
                      0xAB, 0xF7, 0x15, 0x88, 0x09, 0xCF, 0x4F, 0x3C]))) ∧
    (([0x01] : List Nat) ≠ [] ∧ ([0x01] : List Nat).length < 16 ∧
     cmac [0x2B, 0x7E, 0x15, 0x16, 0x28, 0xAE, 0xD2, 0xA6,
           0xAB, 0xF7, 0x15, 0x88, 0x09, 0xCF, 0x4F, 0x3C] [0x01]
       = aesEncryptBlock [0x2B, 0x7E, 0x15, 0x16, 0x28, 0xAE, 0xD2, 0xA6,
                          0xAB, 0xF7, 0x15, 0x88, 0x09, 0xCF, 0x4F, 0x3C]
           (xorBytes ([0x01] ++ 0x80 :: List.replicate (15 - ([0x01] : List Nat).length) 0)
             (cmacK2 [0x2B, 0x7E, 0x15, 0x16, 0x28, 0xAE, 0xD2, 0xA6,
                      0xAB, 0xF7, 0x15, 0x88, 0x09, 0xCF, 0x4F, 0x3C]))) :=
  ⟨⟨by decide, C4_cmac_implements_sp800_38b.1 _ _ (by decide)⟩,
   ⟨by decide, by decide, C4_cmac_implements_sp800_38b.2.2.1 _ _ (by decide) (by decide)⟩⟩

/-- C7 counterexample: starting with stored counter `0xFFFFFE` and in-memory
counter `FFFFFE`, after two reads the in-memory counter has wrapped to
`000000` but the persisted counter is `0x1000000`, not the `0x000000` the
claim requires of it. -/
theorem C7_counterexample :
    (readTrace cfgW true stWrap 2).counter = [0x00, 0x00, 0x00] ∧
    (readTrace cfgW true stWrap 2).storedCounter = 0x1000000 ∧
    (0x1000000 : Nat) ≠ 0x000000 := by
  decide

/-- C7 (amended): the in-memory counter embedded in responses wraps
`FFFFFE → FFFFFF → 000000` across the 24-bit boundary, but the persisted
counter is incremented by a plain `+ 1` and does not wrap: after the same
two reads it is `0xFFFFFE + 2 = 0x1000000`. -/
theorem C7_amended_memory_wraps_storage_does_not :
    (readTrace cfgW true stWrap 1).counter = [0xFF, 0xFF, 0xFF] ∧
    (readTrace cfgW true stWrap 2).counter = [0x00, 0x00, 0x00] ∧
    incrementCounter [0xFF, 0xFF, 0xFF] = [0x00, 0x00, 0x00] ∧
    (∀ c : Nat, storageIncrementCounter c = c + 1) ∧
    (readTrace cfgW true stWrap 1).storedCounter = 0xFFFFFF ∧
    (readTrace cfgW true stWrap 2).storedCounter = 0xFFFFFE + 2 :=
  ⟨by decide, by decide, by decide, fun _ => rfl, by decide, by decide⟩

end BoltCard
